import Mathlib

/-!
Verification development for the transfer-orchestration pipeline of
devgagan/core/get_func.py.  Every definition below is a shallow embedding of a
function or branch of that source file; comments name the embedded lines.
-/

namespace SaveRestricted

/-! ## Python string primitives

List-of-characters models of the Python `str` operations the source uses:
`str.replace`, `str.strip`, substring membership (the `in` operator) and
`str.split`.  All are written with structural recursion (or an explicit fuel
argument already sufficient for every input) so that the kernel can evaluate
them on concrete data. -/

/-- Python ASCII whitespace, the characters removed by `str.strip()`. -/
def isSpace (c : Char) : Bool :=
  c = ' ' || c = '\t' || c = '\n' || c = '\r' || c = '\x0b' || c = '\x0c'

/-- Model of Python `s.strip()`: drop whitespace at both ends. -/
def pyStrip (l : List Char) : List Char :=
  List.rdropWhile isSpace (List.dropWhile isSpace l)

/-- Decidable substring test, model of the Python expression `pat in s`. -/
def containsSub (pat : List Char) : List Char → Bool
  | [] => pat.isEmpty
  | c :: rest => pat.isPrefixOf (c :: rest) || containsSub pat rest

/-- First occurrence split: if `pat` occurs in `s`, return the part before the
first occurrence and the part after it. -/
def splitFirst (pat : List Char) : List Char → Option (List Char × List Char)
  | [] => if pat.isEmpty then some ([], []) else none
  | c :: rest =>
    if pat.isPrefixOf (c :: rest) then some ([], (c :: rest).drop pat.length)
    else match splitFirst pat rest with
      | some (b, a) => some (c :: b, a)
      | none => none

/-- Model of Python `s.replace(w, r)` (all non-overlapping occurrences,
scanning left to right).  `fuel` is consumed once per emitted character or
match; `s.length + 1` is always enough.  A Python quirk kept here: the source
never calls replace with an empty `w` (delete words come from `str.split()`),
and for `w = []` this model returns `s` unchanged. -/
def pyReplaceAux (w r : List Char) : Nat → List Char → List Char
  | 0, s => s
  | _ + 1, [] => []
  | fuel + 1, c :: rest =>
    if w = [] then c :: rest
    else if w.isPrefixOf (c :: rest) then
      r ++ pyReplaceAux w r fuel ((c :: rest).drop w.length)
    else c :: pyReplaceAux w r fuel rest

def pyReplace (s w r : List Char) : List Char :=
  pyReplaceAux w r (s.length + 1) s

/-- String wrapper for `pyReplace`. -/
def pyReplaceS (s w r : String) : String :=
  ⟨pyReplace s.data w.data r.data⟩

/-- String wrapper for `containsSub` (Python `pat in s`). -/
def containsS (s pat : String) : Bool :=
  containsSub pat.data s.data

/-! ## BotConfig constants (source lines 46-65) -/

/-- SIZE_LIMIT: int = 2 * 1024**3 (source line 63). -/
def SIZE_LIMIT : Nat := 2 * 1024 ^ 3

/-- PART_SIZE: int = int(1.9 * 1024**3) (source line 64). -/
def PART_SIZE : Nat := 2040109465

/-- VIDEO_EXTS (source lines 50-53). -/
def VIDEO_EXTS : List String :=
  ["mp4", "mov", "avi", "mkv", "flv", "wmv", "webm", "mpg", "mpeg",
   "3gp", "ts", "m4v", "f4v", "vob"]

/-! ## Delivery strategy (source lines 663-691, handle_message_download)

The size-handling branch of `SmartTelegramBot.handle_message_download`:
photos are sent directly before any size check (line 663); otherwise files
over SIZE_LIMIT go to `split_large_file` when `free_check == 1 or not
self.pro_client` (line 677) and to the 4 GB uploader otherwise; files at or
below the limit are uploaded directly. -/

inductive Strategy
  | Direct
  | Split
  | Elevated
deriving DecidableEq, Repr

/-- Embeds the branch structure of source lines 663-691.  `freeCheck` is the
result of the external entitlement call `chk_user` (1 means the caller is a
free, non-entitled user); `proClient` records whether the elevated 4 GB
backend is configured. -/
def select_strategy (mediaType : String) (fileSize : Nat)
    (freeCheck : Nat) (proClient : Bool) : Strategy :=
  if mediaType = "photo" then .Direct
  else if SIZE_LIMIT < fileSize then
    if freeCheck = 1 || !proClient then .Split else .Elevated
  else .Direct

/-! ## Progress tracking (source lines 67-212) -/

/-- UserProgress dataclass (source lines 67-70).  Timestamps are rationals. -/
structure UserProgress where
  previous_done : Nat
  previous_time : ℚ
deriving DecidableEq, Repr

/-- Snapshot of the numbers computed by `calculate_progress`
(source lines 184-199). -/
structure ProgressSnapshot where
  percent : ℚ
  speed : ℚ
  speed_mbps : ℚ
  eta_min : ℚ
deriving DecidableEq, Repr

/-- Embeds `ProgressManager.calculate_progress` (source lines 184-199) for a
given per-user state `st` and current clock value `now`.  The Python line
`percent = (done / total) * 100` divides with no guard, so `total = 0` raises
`ZeroDivisionError`; the model returns `Except.error ()` there and the state
is not updated (the update on lines 198-199 is only reached after the
division).  On success it returns the snapshot together with the overwritten
state `{previous_done := done, previous_time := now}`. -/
def calculate_progress (st : UserProgress) (done total : Nat) (now : ℚ) :
    Except Unit (ProgressSnapshot × UserProgress) :=
  if total = 0 then .error ()
  else
    let percent : ℚ := ((done : ℚ) / (total : ℚ)) * 100
    let speed : ℚ := max 0 ((done : ℚ) - (st.previous_done : ℚ))
    let elapsed : ℚ := max (1 / 10) (now - st.previous_time)
    let speed_mbps : ℚ := if 0 < elapsed then speed * 8 / (1024 ^ 2 * elapsed) else 0
    let eta_seconds : ℚ := if 0 < speed then ((total : ℚ) - (done : ℚ)) / speed else 0
    .ok (⟨percent, speed, speed_mbps, eta_seconds / 60⟩, ⟨done, now⟩)

/-- Per-user map of the ProgressManager's defaultdict
`self.user_progress` (source line 182). -/
def ProgressMap := List (Nat × UserProgress)

/-- defaultdict lookup: the factory `UserProgress()` initialises
`previous_done = 0` and `previous_time = time.time()` at first access
(source lines 68-70, 182, 185), modelled by initialising with the access
time `now`. -/
def lookupProgress (m : List (Nat × UserProgress)) (u : Nat) (now : ℚ) : UserProgress :=
  match m.lookup u with
  | some st => st
  | none => ⟨0, now⟩

/-- One observation processed through the manager: reads (or creates) the
user's state, runs `calculate_progress`, and stores the updated state.  On a
`ZeroDivisionError` the map is unchanged.  No operation of `ProgressManager`
ever removes an entry. -/
def observe (m : List (Nat × UserProgress)) (u : Nat) (done total : Nat) (now : ℚ) :
    Except Unit ProgressSnapshot × List (Nat × UserProgress) :=
  let st := lookupProgress m u now
  match calculate_progress st done total now with
  | .error e => (.error e, m)
  | .ok (snap, st') => (.ok snap, (u, st') :: m.eraseP (fun p => p.1 = u))

/-! ## More Python primitives: int(), str.split() -/

def digitsToNatAux : Nat → List Char → Option Nat
  | acc, [] => some acc
  | acc, c :: rest =>
    if c.isDigit then digitsToNatAux (acc * 10 + (c.toNat - 48)) rest else none

/-- Model of Python `int(s)` on the plain numeric strings the source builds
(an optional minus sign followed by decimal digits; anything else raises
`ValueError`, modelled as `none`). -/
def strToInt (s : String) : Option Int :=
  match s.data with
  | [] => none
  | '-' :: rest =>
    if rest.isEmpty then none else (digitsToNatAux 0 rest).map fun n => -(n : Int)
  | l => (digitsToNatAux 0 l).map fun n => (n : Int)

/-- Model of Python `s.split(sep)` for a non-empty separator, keeping empty
segments.  `fuel = s.length + 1` is always sufficient. -/
def pySplit (sep : List Char) : Nat → List Char → List (List Char)
  | 0, s => [s]
  | fuel + 1, s =>
    match splitFirst sep s with
    | none => [s]
    | some (before, after) => before :: pySplit sep fuel after

def pySplitS (s sep : String) : List String :=
  (pySplit sep.data (s.data.length + 1) s.data).map fun l => ⟨l⟩

/-! ## pathlib stem/suffix (used by process_filename, line 270-272, and
split_large_file, line 303/312) -/

/-- Split a file name into `Path(name).stem` and `Path(name).suffix` without
its dot: the extension starts at the last dot, provided that dot is neither
the first nor the last character (pathlib's rule `0 < i < len(name) - 1`). -/
def pathSplit (l : List Char) : List Char × List Char :=
  match splitFirst ['.'] l.reverse with
  | none => (l, [])
  | some (extRev, stemRev) =>
    if extRev.isEmpty || stemRev.isEmpty then (l, [])
    else (stemRev.reverse, extRev.reverse)

def pathStemS (s : String) : String := ⟨(pathSplit s.data).1⟩

/-- The suffix including its dot, as `base_path.suffix` yields on line 312. -/
def pathSuffixDot (s : String) : String :=
  let e := (pathSplit s.data).2
  if e.isEmpty then "" else ⟨'.' :: e⟩

/-! ## FileOperations.process_filename (source lines 264-289)

The source renames `file_path` to the rewritten name; the model computes the
rewritten final component.  `delete_words` is a Python set and
`replacements` a dict, so both are modelled as lists in iteration order. -/

def process_filename (fileName : String) (deleteWords : List String)
    (replacements : List (String × String)) (renameTag : String) : String :=
  let se := pathSplit fileName.data
  -- for word in delete_words: name = name.replace(word, "")  (lines 275-276)
  let name := deleteWords.foldl (fun n w => pyReplace n w.data []) se.1
  -- for word, replacement in replacements.items(): ...     (lines 278-279)
  let name := replacements.foldl (fun n wr => pyReplace n wr.1.data wr.2.data) name
  -- extension normalisation for videos (lines 282-283)
  let extLower : String := ⟨se.2.map Char.toLower⟩
  let ext : String :=
    if VIDEO_EXTS.contains extLower && extLower ≠ "mp4" then "mp4" else ⟨se.2⟩
  -- f-string on line 285
  (⟨pyStrip name⟩ : String) ++ " " ++ renameTag ++ "." ++ ext

/-! ## CaptionFormatter.markdown_to_html (source lines 217-240)

Each regex substitution of the `replacements` table (lines 223-234) is
modelled by a dedicated scanner with the semantics of `re.sub` under
`re.MULTILINE | re.DOTALL` for that pattern:

font rule 1 is the anchored greedy blockquote, rules 2-9 are lazy
delimiter pairs, rule 10 is the lazy link pattern. -/

/-- Substitution 1, pattern `^> (.*)` with MULTILINE and DOTALL: at the first
line start holding a quote marker, the greedy `(.*)` (DOTALL) captures the
whole remainder of the string. -/
def bqSub : Bool → List Char → List Char
  | _, [] => []
  | atStart, c :: rest =>
    if atStart && c = '>' && rest.head? = some ' ' then
      ("<blockquote>".data ++ rest.tail ++ "</blockquote>".data)
    else c :: bqSub (c = '\n') rest

/-- Substitutions 2-9, lazy pair patterns such as `\*\*(.*?)\*\*`: the
leftmost opening delimiter that has a later closing delimiter matches, the
lazy inner group stopping at the first closer; scanning resumes after the
match.  `fuel = s.length + 1` is always sufficient. -/
def pairSub (delim openT closeT : List Char) : Nat → List Char → List Char
  | 0, s => s
  | _ + 1, [] => []
  | fuel + 1, c :: rest =>
    if delim.isPrefixOf (c :: rest) then
      match splitFirst delim ((c :: rest).drop delim.length) with
      | some (inner, after) =>
        openT ++ inner ++ closeT ++ pairSub delim openT closeT fuel after
      | none => c :: pairSub delim openT closeT fuel rest
    else c :: pairSub delim openT closeT fuel rest

/-- Substitution 10, pattern `\[(.*?)\]\((.*?)\)`. -/
def linkSub : Nat → List Char → List Char
  | 0, s => s
  | _ + 1, [] => []
  | fuel + 1, c :: rest =>
    if c = '[' then
      match splitFirst "](".data rest with
      | some (text, rest2) =>
        match splitFirst ")".data rest2 with
        | some (url, after) =>
          "<a href=\"".data ++ url ++ "\">".data ++ text ++ "</a>".data ++
            linkSub fuel after
        | none => c :: linkSub fuel rest
      | none => c :: linkSub fuel rest
    else c :: linkSub fuel rest

/-- The ten substitutions of lines 223-238, in table order. -/
def applySubs (s0 : List Char) : List Char :=
  let s1 := bqSub true s0
  let s2 := pairSub "```".data "<pre>".data "</pre>".data (s1.length + 1) s1
  let s3 := pairSub "`".data "<code>".data "</code>".data (s2.length + 1) s2
  let s4 := pairSub "**".data "<b>".data "</b>".data (s3.length + 1) s3
  let s5 := pairSub "*".data "<b>".data "</b>".data (s4.length + 1) s4
  let s6 := pairSub "__".data "<i>".data "</i>".data (s5.length + 1) s5
  let s7 := pairSub "_".data "<i>".data "</i>".data (s6.length + 1) s6
  let s8 := pairSub "~~".data "<s>".data "</s>".data (s7.length + 1) s7
  let s9 := pairSub "||".data "<details>".data "</details>".data (s8.length + 1) s8
  linkSub (s9.length + 1) s9

def applySubsS (s : String) : String := ⟨applySubs s.data⟩

/-- Embeds `CaptionFormatter.markdown_to_html` (lines 217-240): empty caption
short-circuit, the substitution table, then `result.strip()`. -/
def markdown_to_html (caption : String) : String :=
  if caption = "" then "" else ⟨pyStrip (applySubs caption.data)⟩

/-! ## FileOperations.split_large_file (source lines 291-341) -/

/-- Fixed-size chunking of the source file's bytes, mirroring the read loop
on lines 307-310 (`f.read(PART_SIZE)` until an empty chunk).  A part size of
0 makes Python's `read(0)` return empty bytes at once, so the loop body never
runs. -/
def chunksOfAux (P : Nat) : Nat → List Nat → List (List Nat)
  | 0, _ => []
  | _ + 1, [] => []
  | fuel + 1, c :: rest => ((c :: rest).take P) :: chunksOfAux P fuel ((c :: rest).drop P)

def chunksOf (P : Nat) (l : List Nat) : List (List Nat) :=
  if P = 0 then [] else chunksOfAux P (l.length + 1) l

/-- Part file name, line 312:
f-string of stem, ".part", zero-padded index, suffix. -/
def zfill3 (s : String) : String :=
  ⟨List.replicate (3 - s.length) '0' ++ s.data⟩

def partName (stem suffix : String) (n : Nat) : String :=
  stem ++ ".part" ++ zfill3 (Nat.repr n) ++ suffix

/-- Part caption, line 317: the base caption (when non-empty, Python
truthiness) followed by a blank line and the bold part label. -/
def part_caption (caption : String) (partNumber : Nat) : String :=
  if caption = "" then "**Part: " ++ Nat.repr (partNumber + 1) ++ "**"
  else caption ++ "\n\n**Part: " ++ Nat.repr (partNumber + 1) ++ "**"

structure SplitOut where
  /-- (part index, chunk bytes, caption) of each part handed to
  send_document, in execution order. -/
  uploaded : List (Nat × List Nat × String)
  /-- part files still on disk when the call terminates. -/
  partsRemaining : List String
  /-- whether the cleanup on lines 340-341 removed the source file. -/
  sourceRemoved : Bool
  /-- whether the call terminated by a propagating exception. -/
  raised : Bool
deriving DecidableEq, Repr

/-- The per-part loop, lines 307-336.  Oracles decide which external calls
raise for a given part index: `writeFails` is the part write on line 315
raising after the part file was created, `statusFails` is the status
send_message on line 319 raising, `uploadFails` is the guarded upload block
(lines 321-331) raising.  The first two leave the part file on disk (the
inner finally on lines 332-334 has not been entered); an upload failure
reaches the inner finally, which removes the part. -/
def splitLoop (stem suffix caption : String)
    (writeFails statusFails uploadFails : Nat → Bool) :
    List (List Nat) → Nat → List (Nat × List Nat × String) × List String × Bool
  | [], _ => ([], [], false)
  | chunk :: rest, i =>
    let pname := partName stem suffix i
    if writeFails i then ([], [pname], true)
    else if statusFails i then ([], [pname], true)
    else if uploadFails i then ([], [], true)
    else
      let r := splitLoop stem suffix caption writeFails statusFails uploadFails rest (i + 1)
      ((i, chunk, part_caption caption i) :: r.1, r.2.1, r.2.2)

/-- Embeds `FileOperations.split_large_file` (lines 291-341).  A missing
source file returns early before the try block (lines 293-295); a failing
initial status message (line 298) raises before the try block, so the outer
finally (lines 338-341) does not run and the source is not removed; otherwise
the loop runs and the outer finally always removes the source file. -/
def split_large_file (sourceExists : Bool) (contents : List Nat)
    (stem suffix caption : String) (partSize : Nat) (startMsgFails : Bool)
    (writeFails statusFails uploadFails : Nat → Bool) : SplitOut :=
  if !sourceExists then ⟨[], [], false, false⟩
  else if startMsgFails then ⟨[], [], false, true⟩
  else
    let r := splitLoop stem suffix caption writeFails statusFails uploadFails
      (chunksOf partSize contents) 0
    ⟨r.1, r.2.1, true, r.2.2⟩

/-! ## Link parsing (source lines 704-740, _parse_message_link) -/

/-- A derived chat identity: the `t.me/c/` branch builds an int
(line 712) while the `t.me/b/` branch keeps a string (line 709). -/
inductive ChatIdent
  | num (n : Int)
  | name (s : String)
deriving DecidableEq, Repr

/-- Membership test `chat_id in protected_channels` (line 715) against the
set of ints from `get_protected_channels` (lines 113-117): a string chat id
is never equal to an int member. -/
def memberProtected (c : ChatIdent) (prot : List Int) : Bool :=
  match c with
  | .num n => prot.contains n
  | .name _ => false

inductive ParseResult
  /-- chat and message identity returned to the caller (line 719). -/
  | proceed (chat : ChatIdent) (msgId : Int)
  /-- the protected-channel fail-fast (lines 715-717). -/
  | protectedStop
  /-- a raised ValueError/IndexError while deriving identities. -/
  | errStop
  /-- story link dispatched to _download_user_stories (lines 721-732). -/
  | storyBranch (chat : String) (msgId : Int)
  /-- story link without a logged-in secondary session (lines 724-726). -/
  | loginRequired
  /-- public link dispatched to _copy_public_message (lines 734-740). -/
  | publicBranch (chat : String) (msgId : Int)
deriving DecidableEq, Repr

/-- parts[parts.index('c') + 1]: element after the first "c"
element, IndexError when "c" is last (both raise when absent). -/
def afterC : List String → Option String
  | [] => none
  | x :: rest => if x = "c" then rest.head? else afterC rest

/-- parts[-2], IndexError when fewer than two elements. -/
def secondLast (l : List String) : Option String :=
  match l.reverse with
  | _ :: x :: _ => some x
  | _ => none

/-- Embeds `_parse_message_link` (lines 704-740), up to the dispatch of the
story and public handlers which the model runs from the orchestrator. -/
def parse_message_link (gfAvailable : Bool) (link : String) (offset : Int)
    (prot : List Int) : ParseResult :=
  if containsS link "t.me/c/" || containsS link "t.me/b/" then
    let parts := pySplitS link "/"
    if containsS link "t.me/b/" then
      match secondLast parts with
      | none => .errStop
      | some chat =>
        match strToInt (parts.getLastD "") with
        | none => .errStop
        | some n =>
          if memberProtected (.name chat) prot then .protectedStop
          else .proceed (.name chat) (n + offset)
    else
      match afterC parts with
      | none => .errStop
      | some cpart =>
        match strToInt ("-100" ++ cpart) with
        | none => .errStop
        | some cid =>
          match strToInt (parts.getLastD "") with
          | none => .errStop
          | some n =>
            if memberProtected (.num cid) prot then .protectedStop
            else .proceed (.num cid) (n + offset)
  else if containsS link "/s/" then
    if !gfAvailable then .loginRequired
    else
      let parts := pySplitS link "/"
      match parts[3]? with
      | none => .errStop
      | some p3 =>
        let chat := if p3 ≠ "" && p3.data.all Char.isDigit then "-100" ++ p3 else p3
        match strToInt (parts.getLastD "") with
        | none => .errStop
        | some m => .storyBranch chat m
  else
    match (pySplitS link "t.me/")[1]? with
    | none => .errStop
    | some seg =>
      let chat := (pySplitS seg "/").headD ""
      match strToInt ((pySplitS link "/").getLastD "") with
      | none => .errStop
      | some m => .publicBranch chat m

/-- msg_link.split("?single")[0] (line 618). -/
def cleanLink (raw : String) : String := (pySplitS raw "?single").headD ""

/-- The link classification of lines 706. -/
def isCBLink (link : String) : Bool :=
  containsS link "t.me/c/" || containsS link "t.me/b/"

/-- The chat identity lines 708-712 derive from a c/ or b/ link. -/
def derivedChatCB (link : String) : Option ChatIdent :=
  let parts := pySplitS link "/"
  if containsS link "t.me/b/" then (secondLast parts).map .name
  else (afterC parts).bind fun cpart => (strToInt ("-100" ++ cpart)).map .num

/-- int(parts[-1]), the raw message identity of lines 710/713. -/
def msgIdOfLink (link : String) : Option Int :=
  strToInt ((pySplitS link "/").getLastD "")

/-! ## The transfer orchestrator (source lines 611-702, with the story
handler of lines 781-806 and the public-link handler of lines 808-894)

Every external call whose success the control flow branches on is an oracle
field; the model threads through the same branch structure and reports the
externally observable effects: how many message fetches, media downloads and
media send attempts happened, and which files are still on disk when the
invocation terminates. -/

structure Oracles where
  /-- whether the secondary Telethon session exists (the module global
  checked on lines 688/724). -/
  gfAvailable : Bool
  -- _download_user_stories (lines 781-806)
  storyFound : Bool
  storySendable : Bool
  storyDownloadFails : Bool
  storySendFails : Bool
  storyPath : String
  -- handle_message_download main path (lines 630-691)
  fetchRaises : Bool
  msgOk : Bool
  isSpecial : Bool
  hasMedia : Bool
  mediaType : String
  fileSize : Nat
  fileContents : List Nat
  directMediaFails : Bool
  downloadFails : Bool
  downloadedPath : String
  renameFails : Bool
  renamedPath : String
  photoSendFails : Bool
  freeCheck : Nat
  proClient : Bool
  uploadFails : Bool
  -- split_large_file failure oracles, per part index
  splitStartMsgFails : Bool
  splitWriteFails : Nat → Bool
  splitStatusFails : Nat → Bool
  splitUploadFails : Nat → Bool
  -- _copy_public_message (lines 808-894)
  pubFetchRaises : Bool
  pubSimpleMedia : Bool
  pubIsPhoto : Bool
  pubIsText : Bool
  pubFallbackFetchRaises : Bool
  pubFallbackMsgOk : Bool
  pubFallbackIsText : Bool
  pubDownloadFails : Bool
  pubRenameFails : Bool
  pubRenamedPath : String
  pubMediaType : String
  pubFileSize : Nat
  pubFileContents : List Nat
  pubFreeCheck : Nat

inductive Outcome
  | Protected
  | Errored
  | NotFound
  | LoginNeeded
  | Completed
  | Skipped
  | StoryDone
  | PublicDone
deriving DecidableEq, Repr

structure HandleOut where
  /-- number of get_messages / get_stories calls attempted. -/
  fetches : Nat
  /-- number of download_media calls attempted. -/
  downloads : Nat
  /-- number of media send attempts (send_photo/video/audio/document/sticker/
  voice/video_note/copy of content, including per-part uploads). -/
  uploads : Nat
  /-- downloaded local files still on disk at termination. -/
  remainingDownloaded : List String
  /-- split part files still on disk at termination. -/
  remainingParts : List String
  /-- whether the _download_user_stories path ran. -/
  tookStory : Bool
  outcome : Outcome
deriving DecidableEq, Repr

/-- Embeds `_download_user_stories` (lines 781-806).  The function has a try
block whose only handler catches RPCError (line 805) and no finally: the
story file downloaded on line 791 is removed (lines 801-802) only on the
straight-line path, so a raising send_video/send_document/send_photo
(lines 794-799) leaves the file on disk, whether the exception is an
RPCError absorbed on line 805 or anything else propagating to the caller's
generic handler. -/
def download_user_stories (o : Oracles) : HandleOut :=
  if !o.storyFound then ⟨1, 0, 0, [], [], true, .NotFound⟩
  else if o.storyDownloadFails then ⟨1, 1, 0, [], [], true, .Errored⟩
  else if !o.storySendable then ⟨1, 1, 0, [], [], true, .StoryDone⟩
  else if o.storySendFails then ⟨1, 1, 1, [o.storyPath], [], true, .Errored⟩
  else ⟨1, 1, 1, [], [], true, .StoryDone⟩

/-- The userbot fallback of `_copy_public_message` (lines 840-888), entered
when the direct attempt neither returned nor raised.  `f`, `d`, `u` are the
effect counters accumulated so far.  Every branch funnels through the
function's broad `except Exception` (line 890) and its finally (lines
892-894), which removes the fallback's downloaded file, so no downloaded
file survives. -/
def publicFallback (o : Oracles) (f d u : Nat) :
    Nat × Nat × Nat × List String × List String :=
  if !o.gfAvailable then (f, d, u, [], [])
  else if o.pubFallbackFetchRaises then (f + 1, d, u, [], [])
  else if !o.pubFallbackMsgOk then (f + 1, d, u, [], [])
  else if o.pubFallbackIsText then (f + 1, d, u + 1, [], [])
  else if o.pubDownloadFails then (f + 1, d + 1, u, [], [])
  else if o.pubRenameFails then (f + 1, d + 1, u, [], [])
  else if o.pubMediaType = "photo" then (f + 1, d + 1, u + 1, [], [])
  else if SIZE_LIMIT < o.pubFileSize then
    if o.pubFreeCheck = 1 || !o.proClient then
      let s := split_large_file true o.pubFileContents (pathStemS o.pubRenamedPath)
        (pathSuffixDot o.pubRenamedPath) "" PART_SIZE o.splitStartMsgFails
        o.splitWriteFails o.splitStatusFails o.splitUploadFails
      (f + 1, d + 1, u + s.uploaded.length, [], s.partsRemaining)
    else (f + 1, d + 1, u + 1, [], [])
  else (f + 1, d + 1, u + 1, [], [])

/-- Embeds `_copy_public_message` (lines 808-894): the direct first attempt
(photo by file_id, or text copy), falling through to the userbot fallback
when the message is media the direct branch does not send.  Returns
(fetches, downloads, uploads, downloaded files remaining, part files
remaining). -/
def copy_public_message (o : Oracles) :
    Nat × Nat × Nat × List String × List String :=
  if o.pubFetchRaises then (1, 0, 0, [], [])
  else if o.pubSimpleMedia then
    -- msg.media and not msg.document and not msg.video (line 820)
    if o.pubIsPhoto then (1, 0, 1, [], [])
    else publicFallback o 1 0 0
  else if o.pubIsText then (1, 0, 1, [], [])
  else publicFallback o 1 0 0

/-- Embeds `SmartTelegramBot.handle_message_download` (lines 611-702).  The
whole body sits in a try whose finally (lines 698-702) removes whatever
`file_path` names, so on the c//b/ path the downloaded file (under its
original or renamed name) never survives; the story and public paths run
their own handlers. -/
def handle_message_download (o : Oracles) (rawLink : String) (offset : Int)
    (prot : List Int) : HandleOut :=
  let link := cleanLink rawLink
  match parse_message_link o.gfAvailable link offset prot with
  | .protectedStop => ⟨0, 0, 0, [], [], false, .Protected⟩
  | .errStop => ⟨0, 0, 0, [], [], false, .Errored⟩
  | .loginRequired => ⟨0, 0, 0, [], [], false, .LoginNeeded⟩
  | .storyBranch _ _ => download_user_stories o
  | .publicBranch _ _ =>
    let r := copy_public_message o
    ⟨r.1, r.2.1, r.2.2.1, r.2.2.2.1, r.2.2.2.2, false, .PublicDone⟩
  | .proceed _ _ =>
    if o.fetchRaises then ⟨1, 0, 0, [], [], false, .Errored⟩
    else if !o.msgOk then ⟨1, 0, 0, [], [], false, .NotFound⟩
    else if o.isSpecial then ⟨1, 0, 1, [], [], false, .Completed⟩
    else if !o.hasMedia then ⟨1, 0, 0, [], [], false, .Skipped⟩
    else
      -- sticker / voice / video_note direct relay (lines 647-648, 758-779);
      -- a raising send is swallowed there and the flow continues to the
      -- download path below.
      let direct := o.mediaType = "sticker" || o.mediaType = "voice" ||
        o.mediaType = "video_note"
      if direct && !o.directMediaFails then ⟨1, 0, 1, [], [], false, .Completed⟩
      else
        let u0 := if direct then 1 else 0
        if o.downloadFails then ⟨1, 1, u0, [], [], false, .Errored⟩
        else if o.renameFails then ⟨1, 1, u0, [], [], false, .Errored⟩
        else if o.mediaType = "photo" then
          ⟨1, 1, u0 + 1, [], [], false,
            if o.photoSendFails then .Errored else .Completed⟩
        else
          match select_strategy o.mediaType o.fileSize o.freeCheck o.proClient with
          | .Split =>
            let s := split_large_file true o.fileContents (pathStemS o.renamedPath)
              (pathSuffixDot o.renamedPath) "" PART_SIZE o.splitStartMsgFails
              o.splitWriteFails o.splitStatusFails o.splitUploadFails
            ⟨1, 1, u0 + s.uploaded.length, [], s.partsRemaining, false, .Completed⟩
          | .Elevated => ⟨1, 1, u0 + 1, [], [], false, .Completed⟩
          | .Direct =>
            ⟨1, 1, u0 + 1, [], [], false,
              if o.uploadFails then .Errored else .Completed⟩

/-- A concrete oracle valuation on which every external call succeeds. -/
def oracleAllOk : Oracles where
  gfAvailable := true
  storyFound := true
  storySendable := true
  storyDownloadFails := false
  storySendFails := false
  storyPath := "story.mp4"
  fetchRaises := false
  msgOk := true
  isSpecial := false
  hasMedia := true
  mediaType := "video"
  fileSize := 500
  fileContents := [1, 2, 3]
  directMediaFails := false
  downloadFails := false
  downloadedPath := "video.mp4"
  renameFails := false
  renamedPath := "video Team SPY.mp4"
  photoSendFails := false
  freeCheck := 1
  proClient := false
  uploadFails := false
  splitStartMsgFails := false
  splitWriteFails := fun _ => false
  splitStatusFails := fun _ => false
  splitUploadFails := fun _ => false
  pubFetchRaises := false
  pubSimpleMedia := false
  pubIsPhoto := false
  pubIsText := true
  pubFallbackFetchRaises := false
  pubFallbackMsgOk := true
  pubFallbackIsText := false
  pubDownloadFails := false
  pubRenameFails := false
  pubRenamedPath := "p.bin"
  pubMediaType := "document"
  pubFileSize := 100
  pubFileContents := [1]
  pubFreeCheck := 1

/-- The all-success oracle except that sending the downloaded story raises. -/
def oracleStoryLeak : Oracles :=
  { oracleAllOk with storySendFails := true }

/-! ## Theorems -/

/-- C1: Delivery strategy selection.  For every resolved media item: a photo
is delivered by a single Direct upload regardless of byte size; otherwise,
over the 2 GiB hard limit, Elevated is chosen exactly when an elevated
backend is configured and the caller is entitled (the external entitlement
check did not return 1), Split in every other over-limit case; at or below
the limit, Direct. -/
theorem C1_strategy_selection (mt : String) (size freeCheck : Nat) (pro : Bool) :
    (mt = "photo" → select_strategy mt size freeCheck pro = .Direct) ∧
    (mt ≠ "photo" → SIZE_LIMIT < size →
      (select_strategy mt size freeCheck pro = .Elevated ↔ pro = true ∧ freeCheck ≠ 1)) ∧
    (mt ≠ "photo" → SIZE_LIMIT < size → ¬(pro = true ∧ freeCheck ≠ 1) →
      select_strategy mt size freeCheck pro = .Split) ∧
    (mt ≠ "photo" → size ≤ SIZE_LIMIT → select_strategy mt size freeCheck pro = .Direct) := by
  refine ⟨fun h => by simp [select_strategy, h], fun h hs => ?_, fun h hs hn => ?_,
    fun h hs => by simp [select_strategy, h, Nat.not_lt.mpr hs]⟩ <;>
    simp only [select_strategy, if_neg h, if_pos hs] <;>
    cases pro <;> by_cases hf : freeCheck = 1 <;> simp_all

/-- Witness for C1_strategy_selection at concrete inputs (3 GiB and 500 B). -/
theorem C1_strategy_selection_witness :
    select_strategy "photo" 3221225472 1 false = .Direct ∧
    select_strategy "document" 3221225472 0 true = .Elevated ∧
    select_strategy "document" 3221225472 1 true = .Split ∧
    select_strategy "document" 500 0 true = .Direct :=
  ⟨(C1_strategy_selection "photo" 3221225472 1 false).1 rfl,
    ((C1_strategy_selection "document" 3221225472 0 true).2.1 (by decide)
      (by decide)).mpr (by decide),
    (C1_strategy_selection "document" 3221225472 1 true).2.2.1 (by decide)
      (by decide) (by decide),
    (C1_strategy_selection "document" 500 0 true).2.2.2 (by decide) (by decide)⟩

/-- Projection of the percent field from a calculate_progress result. -/
def percentOf (e : Except Unit (ProgressSnapshot × UserProgress)) : Option ℚ :=
  match e with
  | .ok r => some r.1.percent
  | .error _ => none

/-- C3: the code bug.  The unguarded division on source line 186 makes
calculate_progress raise ZeroDivisionError at done = 0, total = 0 (the spec
requires reporting 0 percent instead); the second half of the claim holds:
for every positive total, done = total reports exactly 100 percent. -/
theorem C3_progress_zero_division (st : UserProgress) (now : ℚ) (total : Nat) :
    calculate_progress st 0 0 now = .error () ∧
    percentOf (calculate_progress st (total + 1) (total + 1) now) = some 100 := by
  constructor
  · simp [calculate_progress]
  · have h : ((total : ℚ) + 1) ≠ 0 := by positivity
    simp [calculate_progress, percentOf, div_self h]

/-- Looking up a key other than the erased one is unchanged. -/
theorem lookup_eraseP_ne (m : List (Nat × UserProgress)) (u v : Nat) (h : v ≠ u) :
    (m.eraseP fun p => p.1 = u).lookup v = m.lookup v := by
  induction m with
  | nil => rfl
  | cons hd tl ih =>
    by_cases hk : hd.1 = u
    · have h1 : (fun p : Nat × UserProgress => decide (p.1 = u)) hd = true := by simp [hk]
      have h2 : (v == hd.1) = false := by simp [hk, h]
      simp [List.eraseP_cons, h1, List.lookup, h2]
    · have h1 : (fun p : Nat × UserProgress => decide (p.1 = u)) hd = false := by simp [hk]
      cases hbeq : (v == hd.1) <;> simp [List.eraseP_cons, h1, List.lookup, hbeq, ih]

/-- The state stored by one observation: the user's entry is overwritten with
the observation's own data (source lines 198-199). -/
theorem observe_state (m : List (Nat × UserProgress)) (u done total : Nat) (now : ℚ) :
    (observe m u done (total + 1) now).2 =
      (u, (⟨done, now⟩ : UserProgress)) :: m.eraseP (fun p => p.1 = u) := by
  simp [observe, calculate_progress]

/-- C10 amended: per-user progress state persists across transfers.  An
observation overwrites the user's defaultdict entry with its own
(done, now) pair and never clears it, and entries of other users are
untouched; there is no reset between transfers, so the next transfer's
first observation reads the state left behind (refuted dependence shown in
C10_cross_transfer_dependence). -/
theorem C10_progress_state_persistence (m : List (Nat × UserProgress)) (u : Nat)
    (done total : Nat) (now : ℚ) :
    ((observe m u done (total + 1) now).2.lookup u = some ⟨done, now⟩) ∧
    (∀ v, v ≠ u → (observe m u done (total + 1) now).2.lookup v = m.lookup v) := by
  rw [observe_state]
  constructor
  · simp [List.lookup]
  · intro v hv
    have h2 : (v == u) = false := by simp [hv]
    simp [List.lookup, h2, lookup_eraseP_ne m u v hv]

/-- Witness for C10_progress_state_persistence on a concrete map. -/
theorem C10_progress_state_persistence_witness :
    ((observe [(2, ⟨7, 3⟩)] 1 50 100 10).2.lookup 1 = some ⟨50, 10⟩) ∧
    ((observe [(2, ⟨7, 3⟩)] 1 50 100 10).2.lookup 2 =
      [(2, (⟨7, 3⟩ : UserProgress))].lookup 2) :=
  ⟨(C10_progress_state_persistence [(2, ⟨7, 3⟩)] 1 50 99 10).1,
    (C10_progress_state_persistence [(2, ⟨7, 3⟩)] 1 50 99 10).2 2 (by decide)⟩

/-- Projection of the speed field from an observation result. -/
def snapSpeed : Except Unit ProgressSnapshot → Option ℚ
  | .ok s => some s.speed
  | .error _ => none

/-- C10 counterexample: the first observation of a new transfer (done = 50 of
100 at time 10) differs depending on the final observation of the same
user's previous transfer (it reports speed 0 instead of 50), because the
defaultdict state is reused, not reset.  This falsifies the claim that it
never depends on it. -/
theorem C10_cross_transfer_dependence :
    snapSpeed (observe ((observe [] 1 100 100 5).2) 1 50 100 10).1 = some 0 ∧
    snapSpeed (observe [] 1 50 100 10).1 = some 50 := by
  constructor <;>
    · simp only [observe, calculate_progress, lookupProgress, snapSpeed,
        List.lookup, List.eraseP]
      norm_num

/-! ### C5: filename rewriting and iteration order -/

/-- Removing all occurrences of a single character is a filter. -/
theorem pyReplaceAux_singleton_filter (c : Char) :
    ∀ fuel (s : List Char), s.length ≤ fuel →
    pyReplaceAux [c] [] fuel s = s.filter (fun x => !(x == c)) := by
  intro fuel
  induction fuel with
  | zero => intro s h; rw [List.length_eq_zero.mp (Nat.le_zero.mp h)]; rfl
  | succ fuel ih =>
    intro s h
    cases s with
    | nil => rfl
    | cons a rest =>
      have hr : rest.length ≤ fuel := by simp at h; omega
      by_cases hac : c = a
      · subst hac
        have hstep : pyReplaceAux [c] [] (fuel + 1) (c :: rest) =
            [] ++ pyReplaceAux [c] [] fuel rest := by
          simp [pyReplaceAux, List.isPrefixOf]
        rw [hstep, List.nil_append, ih rest hr]
        simp [List.filter]
      · have hba : (c == a) = false := by simp [hac]
        have hab : (a == c) = false := by simp [Ne.symm hac]
        have hstep : pyReplaceAux [c] [] (fuel + 1) (a :: rest) =
            a :: pyReplaceAux [c] [] fuel rest := by
          simp [pyReplaceAux, List.isPrefixOf, hba]
        rw [hstep, ih rest hr]
        simp [List.filter, hab]

theorem pyReplace_singleton_filter (c : Char) (s : List Char) :
    pyReplace s [c] [] = s.filter (fun x => !(x == c)) :=
  pyReplaceAux_singleton_filter c (s.length + 1) s (Nat.le_succ _)

/-- Removals of single characters commute. -/
theorem singleCharRemove_comm (c d : Char) (s : List Char) :
    pyReplace (pyReplace s [c] []) [d] [] = pyReplace (pyReplace s [d] []) [c] [] := by
  simp only [pyReplace_singleton_filter, List.filter_filter]
  congr 1
  funext a
  rw [Bool.and_comm]

/-- C5 counterexample: with the overlapping delete words ab and b (orders of
one and the same delete-word set) the rewritten filename differs, so
process_filename is not invariant to the iteration order of the delete-word
set, falsifying the claim as stated. -/
theorem C5_order_dependence :
    (["ab", "b"] : List String).Perm ["b", "ab"] ∧
    process_filename "ab.bin" ["ab", "b"] [] "T" ≠
      process_filename "ab.bin" ["b", "ab"] [] "T" := by decide

/-- C5 amended: the delete pass and the replace pass are sequential folds in
iteration order; the result is invariant under reordering of the delete-word
set and of the replacement map whenever the individual removal (respectively
replacement) operations pairwise commute as string transformations - which
overlapping words such as ab/b need not do. -/
theorem C5_rewrite_order_independence (fileName : String) (d1 d2 : List String)
    (r1 r2 : List (String × String)) (tag : String)
    (hd : d1.Perm d2) (hr : r1.Perm r2)
    (hdc : ∀ w1 ∈ d1, ∀ w2 ∈ d1, ∀ s : List Char,
      pyReplace (pyReplace s w1.data []) w2.data [] =
        pyReplace (pyReplace s w2.data []) w1.data [])
    (hrc : ∀ p1 ∈ r1, ∀ p2 ∈ r1, ∀ s : List Char,
      pyReplace (pyReplace s p1.1.data p1.2.data) p2.1.data p2.2.data =
        pyReplace (pyReplace s p2.1.data p2.2.data) p1.1.data p1.2.data) :
    process_filename fileName d1 r1 tag = process_filename fileName d2 r2 tag := by
  unfold process_filename
  dsimp only
  rw [hd.foldl_eq' (fun x hx y hy z => hdc x hx y hy z) (pathSplit fileName.data).1]
  rw [hr.foldl_eq' (fun x hx y hy z => hrc x hx y hy z)]

/-- Witness for C5_rewrite_order_independence: the single-character delete
words x and y commute, so both orders produce the same name. -/
theorem C5_rewrite_order_independence_witness :
    process_filename "xy.mp4" ["x", "y"] [("q", "z")] "Tag" =
      process_filename "xy.mp4" ["y", "x"] [("q", "z")] "Tag" := by
  apply C5_rewrite_order_independence
  · decide
  · exact List.Perm.refl _
  · intro w1 h1 w2 h2 s
    simp only [List.mem_cons, List.not_mem_nil, or_false] at h1 h2
    rcases h1 with h1 | h1 <;> rcases h2 with h2 | h2 <;> subst h1 <;> subst h2 <;>
      first
        | rfl
        | exact singleCharRemove_comm 'x' 'y' s
        | exact singleCharRemove_comm 'y' 'x' s
  · intro p1 h1 p2 h2 s
    simp only [List.mem_singleton] at h1 h2
    subst h1; subst h2; rfl

/-! ### C6: markdown conversion idempotence -/

/-- A stripped string has no leading whitespace left to drop. -/
theorem dropWhile_pyStrip (l : List Char) :
    List.dropWhile isSpace (pyStrip l) = pyStrip l := by
  unfold pyStrip
  rw [List.dropWhile_eq_self_iff]
  intro hl
  have hpre := List.rdropWhile_prefix isSpace (List.dropWhile isSpace l)
  have hne : List.rdropWhile isSpace (List.dropWhile isSpace l) ≠ [] := by
    intro hnil
    rw [hnil] at hl
    simp at hl
  have hmne : List.dropWhile isSpace l ≠ [] := by
    intro hnil
    apply hne
    rw [hnil]
    simp
  have hh := hpre.head hne
  have hhead := List.head_dropWhile_not isSpace l hmne
  rw [List.get_mk_zero, hh]
  simp [hhead]

/-- Python strip is idempotent. -/
theorem pyStrip_idem (l : List Char) : pyStrip (pyStrip l) = pyStrip l := by
  have h1 : pyStrip (pyStrip l) =
      List.rdropWhile isSpace (List.dropWhile isSpace (pyStrip l)) := rfl
  rw [h1, dropWhile_pyStrip]
  unfold pyStrip
  exact List.rdropWhile_idempotent _ _

/-- C6 counterexample: the blockquote pattern is anchored and greedy, so
converting a caption with two quoted lines wraps both in one blockquote
whose body still starts a line with a quote marker; a second conversion
rewrites it again.  markdown_to_html is therefore not idempotent,
falsifying the claim as stated. -/
theorem C6_not_idempotent :
    markdown_to_html (markdown_to_html "> a\n> b") ≠
      markdown_to_html "> a\n> b" := by decide

/-- C6 amended: markdown_to_html is idempotent exactly on the captions whose
converted output no substitution matches any more (the substitution pass
leaves the output fixed); on such captions a second application only strips
an already stripped string. -/
theorem C6_idempotent_on_markup_free (c : String)
    (h : applySubsS (markdown_to_html c) = markdown_to_html c) :
    markdown_to_html (markdown_to_html c) = markdown_to_html c := by
  by_cases hc : c = ""
  · subst hc; rfl
  · by_cases hy : markdown_to_html c = ""
    · rw [hy]; rfl
    · have hdata : applySubs (markdown_to_html c).data = (markdown_to_html c).data :=
        congrArg String.data h
      have hform : (markdown_to_html c).data = pyStrip (applySubs c.data) := by
        unfold markdown_to_html
        rw [if_neg hc]
      show (if markdown_to_html c = "" then "" else
        (⟨pyStrip (applySubs (markdown_to_html c).data)⟩ : String)) = markdown_to_html c
      rw [if_neg hy, hdata, hform, pyStrip_idem, ← hform]

/-- Witness for C6_idempotent_on_markup_free on a markup-free caption. -/
theorem C6_idempotent_on_markup_free_witness :
    markdown_to_html (markdown_to_html "hello") = markdown_to_html "hello" :=
  C6_idempotent_on_markup_free "hello" (by decide)

/-! ### C7, C8, C9: the chunk splitter -/

theorem chunksOfAux_nil (P fuel : Nat) : chunksOfAux P fuel [] = [] := by
  cases fuel <;> rfl

/-- Concatenating the chunks reproduces the input. -/
theorem chunksOfAux_flatten (P : Nat) (hP : 0 < P) :
    ∀ fuel (l : List Nat), l.length ≤ fuel → (chunksOfAux P fuel l).flatten = l := by
  intro fuel
  induction fuel with
  | zero =>
    intro l h
    rw [List.length_eq_zero.mp (Nat.le_zero.mp h)]
    rfl
  | succ fuel ih =>
    intro l h
    cases l with
    | nil => rfl
    | cons c rest =>
      simp only [chunksOfAux, List.flatten_cons]
      rw [ih _ (by simp at h ⊢; omega)]
      exact List.take_append_drop _ _

/-- The number of chunks is the exact ceiling count. -/
theorem chunksOfAux_length (P : Nat) (hP : 0 < P) :
    ∀ fuel (l : List Nat), l ≠ [] → l.length ≤ fuel →
    (chunksOfAux P fuel l).length = (l.length - 1) / P + 1 := by
  intro fuel
  induction fuel with
  | zero =>
    intro l hne h
    exact absurd (List.length_eq_zero.mp (Nat.le_zero.mp h)) hne
  | succ fuel ih =>
    intro l hne h
    cases l with
    | nil => exact absurd rfl hne
    | cons c rest =>
      by_cases hd : List.drop P (c :: rest) = []
      · have hlen : (c :: rest).length ≤ P := List.drop_eq_nil_iff.mp hd
        simp only [chunksOfAux, hd, chunksOfAux_nil, List.length_cons,
          List.length_nil]
        rw [Nat.div_eq_of_lt (by simp at hlen; omega)]
      · have hlen : P < (c :: rest).length := by
          by_contra hcon
          exact hd (List.drop_eq_nil_iff.mpr (by omega))
        have hlen' : P < rest.length + 1 := by simpa using hlen
        simp only [chunksOfAux, List.length_cons]
        rw [ih _ hd (by simp at h ⊢; omega)]
        have hgoal : ((rest.length + 1 - P) - 1) / P + 1 + 1 =
            (rest.length + 1 - 1) / P + 1 := by
          have hle : P ≤ rest.length + 1 - 1 := by omega
          rw [Nat.div_eq_sub_div hP hle]
          have harg : rest.length + 1 - 1 - P = rest.length + 1 - P - 1 := by omega
          rw [harg]
        simpa [List.length_drop] using hgoal

/-- With no write, status or upload failure the loop uploads every chunk in
index order and leaves nothing behind. -/
theorem splitLoop_success (stem suffix cap : String) :
    ∀ (chunks : List (List Nat)) (i : Nat),
    ((splitLoop stem suffix cap (fun _ => false) (fun _ => false) (fun _ => false)
      chunks i).1.map fun t => t.1) = List.range' i chunks.length ∧
    ((splitLoop stem suffix cap (fun _ => false) (fun _ => false) (fun _ => false)
      chunks i).1.map fun t => t.2.1) = chunks ∧
    (splitLoop stem suffix cap (fun _ => false) (fun _ => false) (fun _ => false)
      chunks i).2.1 = [] := by
  intro chunks
  induction chunks with
  | nil => intro i; exact ⟨rfl, rfl, rfl⟩
  | cons c rest ih =>
    intro i
    obtain ⟨h1, h2, h3⟩ := ih (i + 1)
    refine ⟨?_, ?_, ?_⟩ <;>
      simp [splitLoop, h1, h2, h3, List.range'_succ]

/-- Part files never remain when every part write and status message
succeeds, whatever the upload outcomes. -/
theorem splitLoop_parts_clean (stem suffix cap : String) (uf : Nat → Bool) :
    ∀ (chunks : List (List Nat)) (i : Nat),
    (splitLoop stem suffix cap (fun _ => false) (fun _ => false) uf chunks i).2.1 = [] := by
  intro chunks
  induction chunks with
  | nil => intro i; rfl
  | cons c rest ih =>
    intro i
    by_cases hu : uf i = true <;> simp [splitLoop, hu, ih (i + 1)]

/-- Every uploaded part carries the caption built by part_caption for its
own index. -/
theorem splitLoop_caption (stem suffix cap : String) (wf sf uf : Nat → Bool) :
    ∀ (chunks : List (List Nat)) (i : Nat) (x : Nat × List Nat × String),
    x ∈ (splitLoop stem suffix cap wf sf uf chunks i).1 →
    x.2.2 = part_caption cap x.1 := by
  intro chunks
  induction chunks with
  | nil => intro i x hx; simp [splitLoop] at hx
  | cons c rest ih =>
    intro i x hx
    by_cases hw : wf i = true
    · simp [splitLoop, hw] at hx
    · by_cases hs : sf i = true
      · simp [splitLoop, hw, hs] at hx
      · by_cases hu : uf i = true
        · simp [splitLoop, hw, hs, hu] at hx
        · simp only [splitLoop, hw, hs, hu, Bool.false_eq_true, if_false,
            List.mem_cons] at hx
          rcases hx with hx | hx
          · rw [hx]
          · exact ih (i + 1) x hx

/-- Ceiling arithmetic: (F - 1) / P + 1 = (F + P - 1) / P for positive F. -/
theorem ceil_div_shift (F P : Nat) (hF : 0 < F) (hP : 0 < P) :
    (F - 1) / P + 1 = (F + P - 1) / P := by
  rw [show F + P - 1 = (F - 1) + P from by omega, Nat.add_div_right _ hP]

/-- C7: Chunk splitting correctness.  For a non-empty source file and a
positive part size, when every external call succeeds split_large_file
uploads exactly ceil(F/P) parts; their indices are 0, 1, ... in ascending
order and concatenating their byte contents in that order reproduces the
original file exactly. -/
theorem C7_chunk_splitting (contents : List Nat) (stem suffix cap : String)
    (P : Nat) (hne : contents ≠ []) (hP : 0 < P) :
    ((split_large_file true contents stem suffix cap P false (fun _ => false)
        (fun _ => false) (fun _ => false)).uploaded.length =
      (contents.length + P - 1) / P) ∧
    (((split_large_file true contents stem suffix cap P false (fun _ => false)
        (fun _ => false) (fun _ => false)).uploaded.map fun t => t.2.1).flatten =
      contents) ∧
    ((split_large_file true contents stem suffix cap P false (fun _ => false)
        (fun _ => false) (fun _ => false)).uploaded.map fun t => t.1) =
      List.range ((contents.length + P - 1) / P) := by
  obtain ⟨h1, h2, _⟩ := splitLoop_success stem suffix cap (chunksOf P contents) 0
  have hjoin : (chunksOf P contents).flatten = contents := by
    unfold chunksOf
    rw [if_neg (by omega)]
    exact chunksOfAux_flatten P hP _ contents (Nat.le_succ _)
  have hchunklen : (chunksOf P contents).length = (contents.length + P - 1) / P := by
    unfold chunksOf
    rw [if_neg (by omega)]
    rw [chunksOfAux_length P hP _ contents hne (Nat.le_succ _)]
    exact ceil_div_shift contents.length P (by
      cases contents with
      | nil => exact absurd rfl hne
      | cons a l => simp) hP
  have hsplit : (split_large_file true contents stem suffix cap P false
      (fun _ => false) (fun _ => false) (fun _ => false)).uploaded =
      (splitLoop stem suffix cap (fun _ => false) (fun _ => false) (fun _ => false)
        (chunksOf P contents) 0).1 := rfl
  refine ⟨?_, ?_, ?_⟩
  · rw [hsplit]
    have hlenmap := congrArg List.length h2
    simpa [hchunklen] using hlenmap
  · rw [hsplit, h2, hjoin]
  · rw [hsplit, h1, ← hchunklen, List.range_eq_range']

/-- Witness for C7_chunk_splitting: a five-byte file with part size two is
split into three parts reproducing the file. -/
theorem C7_chunk_splitting_witness :
    ((split_large_file true [1, 2, 3, 4, 5] "f" ".bin" "" 2 false (fun _ => false)
        (fun _ => false) (fun _ => false)).uploaded.length = 3) ∧
    (((split_large_file true [1, 2, 3, 4, 5] "f" ".bin" "" 2 false (fun _ => false)
        (fun _ => false) (fun _ => false)).uploaded.map fun t => t.2.1).flatten =
      [1, 2, 3, 4, 5]) ∧
    ((split_large_file true [1, 2, 3, 4, 5] "f" ".bin" "" 2 false (fun _ => false)
        (fun _ => false) (fun _ => false)).uploaded.map fun t => t.1) = [0, 1, 2] := by
  obtain ⟨h1, h2, h3⟩ :=
    C7_chunk_splitting [1, 2, 3, 4, 5] "f" ".bin" "" 2 (by decide) (by decide)
  exact ⟨by rw [h1]; decide, h2, by rw [h3]; decide⟩

/-- C8 amended: each part file is removed by the inner guaranteed-cleanup
whenever its upload attempt completes or fails, and the source file is
removed by the outer guaranteed-cleanup whenever the loop was entered; so
with no failure in the part write or in the pre-upload status send (upload
outcomes arbitrary) no part file remains and the source is removed.  A
failing part write or pre-upload status send, which the claim as stated
also covers, can leave a part file (C8_part_file_leak). -/
theorem C8_part_cleanup (contents : List Nat) (stem suffix cap : String)
    (P : Nat) (uf : Nat → Bool) :
    ((split_large_file true contents stem suffix cap P false (fun _ => false)
        (fun _ => false) uf).partsRemaining = []) ∧
    ((split_large_file true contents stem suffix cap P false (fun _ => false)
        (fun _ => false) uf).sourceRemoved = true) :=
  ⟨splitLoop_parts_clean stem suffix cap uf (chunksOf P contents) 0, rfl⟩

/-- C8 counterexample: if the pre-upload status send for part 0 raises, the
part file f.part000.bin is still on disk when split_large_file terminates;
and if the initial status message raises, the source file is not removed by
the function's cleanup block.  This falsifies the claim as stated. -/
theorem C8_part_file_leak :
    ((split_large_file true [7] "f" ".bin" "" 5 false (fun _ => false)
        (fun _ => true) (fun _ => false)).partsRemaining = ["f.part000.bin"]) ∧
    ((split_large_file true [7] "f" ".bin" "cap" 5 true (fun _ => false)
        (fun _ => false) (fun _ => false)).sourceRemoved = false) := by decide

/-- C9 amended: every part handed to the uploader carries, for 0-based index
n, the caption base ++ blank line ++ bold part label when a base caption
exists and the bold part label alone otherwise - the label being
literally **Part: n+1** with the markdown bold markers, not the bare
text the claim states (C9_caption_not_plain). -/
theorem C9_part_caption_format (sourceExists : Bool) (contents : List Nat)
    (stem suffix cap : String) (P : Nat) (smf : Bool) (wf sf uf : Nat → Bool)
    (x : Nat × List Nat × String)
    (hx : x ∈ (split_large_file sourceExists contents stem suffix cap P smf
      wf sf uf).uploaded) :
    x.2.2 = if cap = "" then "**Part: " ++ Nat.repr (x.1 + 1) ++ "**"
      else cap ++ "\n\n**Part: " ++ Nat.repr (x.1 + 1) ++ "**" := by
  unfold split_large_file at hx
  by_cases hsrc : sourceExists
  · by_cases hsm : smf
    · simp [hsrc, hsm] at hx
    · simp only [hsrc, hsm, Bool.not_true, Bool.false_eq_true, if_false] at hx
      exact splitLoop_caption stem suffix cap wf sf uf (chunksOf P contents) 0 x hx
  · simp [hsrc] at hx

/-- Witness for C9_part_caption_format on a concrete one-part split with no
base caption. -/
theorem C9_part_caption_format_witness :
    ((split_large_file true [7] "f" ".bin" "" 5 false (fun _ => false)
        (fun _ => false) (fun _ => false)).uploaded = [(0, [7], "**Part: 1**")]) ∧
    ((0, [7], "**Part: 1**") : Nat × List Nat × String).2.2 =
      (if ("" : String) = "" then "**Part: " ++ Nat.repr (0 + 1) ++ "**"
        else "" ++ "\n\n**Part: " ++ Nat.repr (0 + 1) ++ "**") :=
  ⟨by decide,
    C9_part_caption_format true [7] "f" ".bin" "" 5 false (fun _ => false)
      (fun _ => false) (fun _ => false) (0, [7], "**Part: 1**") (by decide)⟩

/-- C9 counterexample: with no base caption the caption passed to the
uploader for the first part is **Part: 1** (with markdown bold markers),
not exactly the text Part: 1 the claim states. -/
theorem C9_caption_not_plain :
    (((split_large_file true [7] "f" ".bin" "" 5 false (fun _ => false)
        (fun _ => false) (fun _ => false)).uploaded.map fun t => t.2.2) =
      ["**Part: 1**"]) ∧
    ("**Part: 1**" : String) ≠ "Part: 1" := by decide

/-! ### C2: temporary-file cleanup, C4: protected fail-fast -/

/-- The public-link handler never leaves a downloaded file behind: every
branch funnels through its broad exception handler and finally block. -/
theorem copy_public_no_leak (o : Oracles) : (copy_public_message o).2.2.2.1 = [] := by
  unfold copy_public_message publicFallback
  simp [apply_ite (fun t : Nat × Nat × Nat × List String × List String => t.2.2.2.1)]

/-- The story handler removes the story file when the send succeeds. -/
theorem story_no_leak (o : Oracles) (h : o.storySendFails = false) :
    (download_user_stories o).remainingDownloaded = [] := by
  unfold download_user_stories
  split_ifs with h1 h2 h3 h4
  · rfl
  · rfl
  · rfl
  · rw [h] at h4; exact Bool.noConfusion h4
  · rfl

theorem story_took (o : Oracles) : (download_user_stories o).tookStory = true := by
  unfold download_user_stories
  simp [apply_ite (fun h : HandleOut => h.tookStory)]

/-- C2 amended: on every path of handle_message_download other than the
story path the downloaded temporary file is removed by the time the
invocation terminates, on success, failure and the split path alike (the
outer finally of lines 698-702, the public handler's finally of lines
892-894, and split_large_file's source cleanup); on the story path the
downloaded story file is removed only when sending the story succeeds, the
leak being shown by C2_story_file_leak. -/
theorem C2_cleanup_invariant (o : Oracles) (raw : String) (offset : Int)
    (prot : List Int) :
    ((handle_message_download o raw offset prot).tookStory = false →
      (handle_message_download o raw offset prot).remainingDownloaded = []) ∧
    (o.storySendFails = false →
      (handle_message_download o raw offset prot).remainingDownloaded = []) := by
  unfold handle_message_download
  dsimp only
  cases hp : parse_message_link o.gfAvailable (cleanLink raw) offset prot with
  | protectedStop => exact ⟨fun _ => rfl, fun _ => rfl⟩
  | errStop => exact ⟨fun _ => rfl, fun _ => rfl⟩
  | loginRequired => exact ⟨fun _ => rfl, fun _ => rfl⟩
  | storyBranch chat m =>
    refine ⟨fun hts => ?_, fun hsf => story_no_leak o hsf⟩
    rw [story_took o] at hts
    exact absurd hts (by simp)
  | publicBranch chat m =>
    exact ⟨fun _ => copy_public_no_leak o, fun _ => copy_public_no_leak o⟩
  | proceed chat m =>
    constructor <;> intro _ <;>
      (cases hsel : select_strategy o.mediaType o.fileSize o.freeCheck o.proClient <;>
        simp [apply_ite (fun h : HandleOut => h.remainingDownloaded)])

/-- Witness for C2_cleanup_invariant: a private-channel transfer on the
all-success oracle leaves no downloaded file. -/
theorem C2_cleanup_invariant_witness :
    (handle_message_download oracleAllOk "https://t.me/c/123/45" 0
      []).remainingDownloaded = [] :=
  (C2_cleanup_invariant oracleAllOk "https://t.me/c/123/45" 0 []).1 (by decide)

/-- C2 counterexample: a story transfer whose story send raises downloads
one file and terminates with story.mp4 still on disk - the downloaded file
outlives its transfer invocation, falsifying the claim as stated. -/
theorem C2_story_file_leak :
    ((handle_message_download oracleStoryLeak "https://t.me/user/s/123" 0
      []).downloads = 1) ∧
    ((handle_message_download oracleStoryLeak "https://t.me/user/s/123" 0
      []).remainingDownloaded = ["story.mp4"]) := by decide

/-- C4: Protected-channel fail-fast.  For every c/ or b/ link (well-formed
enough that chat and message identities derive), when the derived chat
identity is in the protected set, _parse_message_link returns the Protected
stop before any fetch, and the orchestrator run performs zero fetches, zero
downloads and zero uploads, ending in the Protected outcome.  A b/ link
derives a string chat identity, which is never a member of the integer
protected set, so the hypothesis is satisfiable only on the c/ branch. -/
theorem C4_protected_fail_fast (o : Oracles) (raw : String) (offset : Int)
    (prot : List Int) (c : ChatIdent) (m : Int)
    (hcb : isCBLink (cleanLink raw) = true)
    (hc : derivedChatCB (cleanLink raw) = some c)
    (hm : msgIdOfLink (cleanLink raw) = some m)
    (hmem : memberProtected c prot = true) :
    parse_message_link o.gfAvailable (cleanLink raw) offset prot = .protectedStop ∧
    (handle_message_download o raw offset prot).fetches = 0 ∧
    (handle_message_download o raw offset prot).downloads = 0 ∧
    (handle_message_download o raw offset prot).uploads = 0 ∧
    (handle_message_download o raw offset prot).outcome = .Protected := by
  unfold isCBLink at hcb
  unfold derivedChatCB at hc
  unfold msgIdOfLink at hm
  have hparse : parse_message_link o.gfAvailable (cleanLink raw) offset prot =
      .protectedStop := by
    unfold parse_message_link
    dsimp only
    rw [hcb]
    simp only [if_true]
    by_cases hb : containsS (cleanLink raw) "t.me/b/" = true
    · rw [if_pos hb] at hc
      exfalso
      cases hsl : secondLast (pySplitS (cleanLink raw) "/") with
      | none => rw [hsl] at hc; simp at hc
      | some s =>
        rw [hsl] at hc
        simp only [Option.map_some'] at hc
        injection hc with hc
        rw [← hc] at hmem
        simp [memberProtected] at hmem
    · rw [if_neg hb] at hc
      rw [if_neg hb]
      cases ha : afterC (pySplitS (cleanLink raw) "/") with
      | none => rw [ha] at hc; simp at hc
      | some cp =>
        rw [ha] at hc
        simp only [Option.some_bind] at hc
        cases hi : strToInt ("-100" ++ cp) with
        | none => rw [hi] at hc; simp at hc
        | some cid =>
          rw [hi] at hc
          simp only [Option.map_some'] at hc
          injection hc with hc
          rw [← hc] at hmem
          dsimp only
          rw [hi]
          dsimp only
          rw [hm]
          dsimp only
          rw [hmem]
          simp
  have hh : handle_message_download o raw offset prot =
      ⟨0, 0, 0, [], [], false, .Protected⟩ := by
    unfold handle_message_download
    dsimp only
    rw [hparse]
  exact ⟨hparse, by rw [hh], by rw [hh], by rw [hh], by rw [hh]⟩

/-- Witness for C4_protected_fail_fast: the private link for channel 123,
with -100123 locked, stops as Protected with zero fetches, downloads and
uploads. -/
theorem C4_protected_fail_fast_witness :
    (parse_message_link oracleAllOk.gfAvailable
      (cleanLink "https://t.me/c/123/45") 0 [-100123] = .protectedStop) ∧
    ((handle_message_download oracleAllOk "https://t.me/c/123/45" 0
      [-100123]).fetches = 0) ∧
    ((handle_message_download oracleAllOk "https://t.me/c/123/45" 0
      [-100123]).downloads = 0) ∧
    ((handle_message_download oracleAllOk "https://t.me/c/123/45" 0
      [-100123]).uploads = 0) ∧
    ((handle_message_download oracleAllOk "https://t.me/c/123/45" 0
      [-100123]).outcome = .Protected) :=
  C4_protected_fail_fast oracleAllOk "https://t.me/c/123/45" 0 [-100123]
    (.num (-100123)) 45 (by decide) (by decide) (by decide) (by decide)

end SaveRestricted
